import Mathlib

/-!
Verification of the curve-data pipeline of `UEJSONReader.py` (The Isle Stat
Reader) through a shallow embedding.  JSON values are modelled by the
inductive `JVal` (numbers as exact rationals), Python runtime errors by
`PyErr`, and each fallible Python operation by an `Except PyErr` function
mirroring CPython semantics (truthiness, subscript errors, `dict.get`,
slicing, numeric coercion of booleans).  Two deliberate simplifications,
noted where they occur: numbers carry no int/float distinction, and
dictionary equality is compared in listing order.
-/

inductive JVal where
  | null
  | bool (b : Bool)
  | num (q : ℚ)
  | str (s : String)
  | arr (xs : List JVal)
  | obj (kvs : List (String × JVal))

inductive PyErr where
  | keyError
  | indexError
  | typeError
  | valueError
  | attributeError
  deriving DecidableEq

/-- Python truthiness of a JSON value (`bool(x)`). -/
def truthy : JVal → Bool
  | .null => false
  | .bool b => b
  | .num q => decide (q ≠ 0)
  | .str s => !s.data.isEmpty
  | .arr xs => !xs.isEmpty
  | .obj kvs => !kvs.isEmpty

mutual
/-- Python `==` on JSON values.  Booleans compare equal to the numbers 0/1 as
in Python; dictionaries are compared in listing order (a simplification of
Python's order-insensitive dict equality, adequate for parsed JSON rows). -/
def pyEqB : JVal → JVal → Bool
  | .null, .null => true
  | .bool a, .bool b => a == b
  | .bool a, .num q => q == (if a then (1 : ℚ) else 0)
  | .num q, .bool a => q == (if a then (1 : ℚ) else 0)
  | .num a, .num b => a == b
  | .str a, .str b => a == b
  | .arr as, .arr bs => pyEqL as bs
  | .obj as, .obj bs => pyEqO as bs
  | _, _ => false

def pyEqL : List JVal → List JVal → Bool
  | [], [] => true
  | a :: as, b :: bs => pyEqB a b && pyEqL as bs
  | _, _ => false

def pyEqO : List (String × JVal) → List (String × JVal) → Bool
  | [], [] => true
  | (k, a) :: as, (l, b) :: bs => k == l && pyEqB a b && pyEqO as bs
  | _, _ => false
end

/-- First-match lookup in an association list (parsed JSON objects are
assumed to have distinct keys, as Python dicts do). -/
def lookupKV {α : Type} : List (String × α) → String → Option α
  | [], _ => none
  | (k, v) :: rest, key => if k == key then some v else lookupKV rest key

/-- Python `x[0]` (the only integer subscript the source uses). -/
def pyIndex0 : JVal → Except PyErr JVal
  | .arr [] => .error .indexError
  | .arr (x :: _) => .ok x
  | .str s =>
    match s.data with
    | [] => .error .indexError
    | c :: _ => .ok (.str ⟨[c]⟩)
  | .obj _ => .error .keyError
  | _ => .error .typeError

/-- Python `x[k]` for a string key `k`. -/
def pyGetItem : JVal → String → Except PyErr JVal
  | .obj kvs, k =>
    match lookupKV kvs k with
    | some v => .ok v
    | none => .error .keyError
  | _, _ => .error .typeError

/-- Python `x.get(k, dflt)`; raises `AttributeError` when `x` is not a dict. -/
def pyDictGet (v : JVal) (k : String) (dflt : JVal) : Except PyErr JVal :=
  match v with
  | .obj kvs => .ok ((lookupKV kvs k).getD dflt)
  | _ => .error .attributeError

/-- Python `x.items()`; raises `AttributeError` when `x` is not a dict. -/
def pyItems : JVal → Except PyErr (List (String × JVal))
  | .obj kvs => .ok kvs
  | _ => .error .attributeError

/-- Helpers mirroring Python string methods, written over character lists so
that they evaluate by kernel reduction. -/
def chStarts : List Char → List Char → Bool
  | [], _ => true
  | _ :: _, [] => false
  | a :: as, b :: bs => a == b && chStarts as bs

def chHas (need : List Char) : List Char → Bool
  | [] => need.isEmpty
  | c :: rest => chStarts need (c :: rest) || chHas need rest

/-- Python `need in hay` on strings (contiguous substring test). -/
def sHas (hay need : String) : Bool := chHas need.data hay.data

/-- Python `s.startswith(pre)`. -/
def sStarts (pre s : String) : Bool := chStarts pre.data s.data

/-- Python `s.lower()` (ASCII range, which covers the attribute names). -/
def sLower (s : String) : String := ⟨s.data.map Char.toLower⟩

/-- Python `k in v` for a string `k` (key membership on dicts, substring on
strings, element membership on lists). -/
def pyHasKey : JVal → String → Except PyErr Bool
  | .obj kvs, k => .ok (lookupKV kvs k).isSome
  | .str s, k => .ok (chHas k.data s.data)
  | .arr xs, k => .ok (xs.any (pyEqB (.str k)))
  | _, _ => .error .typeError

/-- Python `len(x)`. -/
def pyLen : JVal → Except PyErr Nat
  | .arr xs => .ok xs.length
  | .str s => .ok s.data.length
  | .obj kvs => .ok kvs.length
  | _ => .error .typeError

/-- Python iteration `for y in x` (elements of a list, characters of a
string, keys of a dict). -/
def pyIter : JVal → Except PyErr (List JVal)
  | .arr xs => .ok xs
  | .str s => .ok (s.data.map (fun c => .str ⟨[c]⟩))
  | .obj kvs => .ok (kvs.map (fun kv => .str kv.1))
  | _ => .error .typeError

/-- Python `x[:2]` followed by iteration; dicts are unsliceable. -/
def pySlice2 : JVal → Except PyErr (List JVal)
  | .arr xs => .ok (xs.take 2)
  | .str s => .ok ((s.data.take 2).map (fun c => .str ⟨[c]⟩))
  | _ => .error .typeError

/-- Numeric view of a JSON value: Python arithmetic coerces booleans to 0/1. -/
def asNum : JVal → Option ℚ
  | .num q => some q
  | .bool b => some (if b then 1 else 0)
  | _ => none

/-- Python `a - b` on JSON scalars. -/
def pySub (a b : JVal) : Except PyErr ℚ :=
  match asNum a, asNum b with
  | some x, some y => .ok (x - y)
  | _, _ => .error .typeError

/-- Python `a * b` on JSON scalars (numeric case only; the source only
multiplies curve values by percentages / conversion factors). -/
def pyMulJ (a b : JVal) : Except PyErr JVal :=
  match asNum a, asNum b with
  | some x, some y => .ok (.num (x * y))
  | _, _ => .error .typeError

/-- Python `a > 0.0`. -/
def pyGtZero (a : JVal) : Except PyErr Bool :=
  match asNum a with
  | some x => .ok (decide (0 < x))
  | none => .error .typeError

/-- Python `a < 1.0`. -/
def pyLtOneB (a : JVal) : Except PyErr Bool :=
  match asNum a with
  | some x => .ok (decide (x < 1))
  | none => .error .typeError

/-- Python `v != 0` (never raises; non-numbers are simply unequal to 0). -/
def pyNeZero (v : JVal) : Bool :=
  match asNum v with
  | some x => decide (x ≠ 0)
  | none => true

/-- Python list subscript `xs[i]` on an already-extracted list. -/
def lGet (xs : List JVal) (i : Nat) : Except PyErr JVal :=
  match xs.get? i with
  | some v => .ok v
  | none => .error .indexError

/-- Python list subscript `xs[-1]`. -/
def lLast (xs : List JVal) : Except PyErr JVal :=
  match xs.getLast? with
  | some v => .ok v
  | none => .error .indexError

/-- A Python list comprehension with a fallible body. -/
def exMapL {α : Type} (f : JVal → Except PyErr α) : List JVal → Except PyErr (List α)
  | [] => .ok []
  | x :: xs => do
    let y ← f x
    let ys ← exMapL f xs
    pure (y :: ys)

@[simp] theorem exceptBindOk {α β : Type} (a : α) (f : α → Except PyErr β) :
    (Except.ok a >>= f) = f a := rfl

@[simp] theorem exceptBindErr {α β : Type} (e : PyErr) (f : α → Except PyErr β) :
    ((Except.error e : Except PyErr α) >>= f) = Except.error e := rfl

@[simp] theorem exceptPureEq {α : Type} (a : α) :
    (pure a : Except PyErr α) = Except.ok a := rfl

/-!
## Normalization of the two raw curve shapes

Three call sites in the source resolve a raw attribute record to a list of
curves.  `is_linear_or_flat` (line 184) and `plot_selected_file` (line 450)
use the same truthiness-based expression
`data[0].get("FloatCurves") or [data[0].get("Properties", {}).get("FloatCurve")]`;
`generate_virtual_attack_files` (lines 374-379) instead tests key membership
and raises `ValueError` when neither shape is present.
-/

/-- Line 184 of the source, applied to the record `data[0]`. -/
def resolveClassifier (rec : JVal) : Except PyErr JVal := do
  let a ← pyDictGet rec "FloatCurves" .null
  if truthy a then pure a
  else do
    let p ← pyDictGet rec "Properties" (.obj [])
    let fc ← pyDictGet p "FloatCurve" .null
    pure (.arr [fc])

/-- Line 450 of the source, applied to the record `file_data[0]`; the
expression is the same one `is_linear_or_flat` uses. -/
def resolvePlotter (rec : JVal) : Except PyErr JVal := do
  let a ← pyDictGet rec "FloatCurves" .null
  if truthy a then pure a
  else do
    let p ← pyDictGet rec "Properties" (.obj [])
    let fc ← pyDictGet p "FloatCurve" .null
    pure (.arr [fc])

/-- Lines 374-379 of the source: the key-membership resolution used by
`generate_virtual_attack_files`, raising `ValueError` when neither shape is
present. -/
def resolveGenerator (rec : JVal) : Except PyErr JVal := do
  let hasFC ← pyHasKey rec "FloatCurves"
  if hasFC then pyGetItem rec "FloatCurves"
  else do
    let hasP ← pyHasKey rec "Properties"
    if hasP then do
      let props ← pyGetItem rec "Properties"
      let hasFC2 ← pyHasKey props "FloatCurve"
      if hasFC2 then do
        let props2 ← pyGetItem rec "Properties"
        let fc ← pyGetItem props2 "FloatCurve"
        pure (.arr [fc])
      else .error .valueError
    else .error .valueError

/-!
## The linearity classifier `is_linear_or_flat` (lines 173-218)
-/

/-- The absolute tolerance `1e-9` of line 212. -/
def tol : ℚ := 1 / 1000000000

/-- Line 212's test `abs(current_slope - first_slope) > 1e-9`, on slopes that
are either finite or `float('inf')` (`none`).  `abs(inf - inf)` is `nan` in
Python and `nan > 1e-9` is `False`, so two infinite slopes never exceed the
tolerance; an infinite slope against a finite one gives `inf > 1e-9`, true. -/
def slopeExceeds : Option ℚ → Option ℚ → Bool
  | none, none => false
  | none, some _ => true
  | some _, none => true
  | some a, some b => decide (tol < |a - b|)

/-- The loop of lines 203-213: walk consecutive pairs starting at index 2,
carrying the previous keyframe's time and value, short-circuiting to `false`
on the first slope that differs from `first_slope` beyond the tolerance. -/
def slopeLoop (fs : Option ℚ) : JVal → JVal → List JVal → List JVal → Except PyErr Bool
  | _, _, [], _ => .ok true
  | _, _, _ :: _, [] => .error .indexError
  | pt, pv, t :: ts, v :: vs => do
    let td ← pySub t pt
    let cs ← if td = 0 then pure (none : Option ℚ)
             else do
               let vd ← pySub v pv
               pure (some (vd / td))
    if slopeExceeds cs fs then pure false
    else slopeLoop fs t v ts vs

/-- Lines 184-215: the body of the `try` block of `is_linear_or_flat`. -/
def linBody (data : JVal) : Except PyErr Bool := do
  let d0 ← pyIndex0 data
  let fcs ← resolveClassifier d0
  let c0 ← pyIndex0 fcs
  let keysJ ← pyGetItem c0 "Keys"
  let n ← pyLen keysJ
  if n ≤ 2 then pure true
  else do
    let keys ← pyIter keysJ
    let times ← exMapL (fun k => pyGetItem k "Time") keys
    let vals ← exMapL (fun k => pyGetItem k "Value") keys
    let v0 ← lGet vals 0
    if vals.all (fun v => pyEqB v v0) then pure true
    else do
      let t0 ← lGet times 0
      let t1 ← lGet times 1
      let v1 ← lGet vals 1
      let td ← pySub t1 t0
      let fs ← if td = 0 then pure (none : Option ℚ)
               else do
                 let vd ← pySub v1 v0
                 pure (some (vd / td))
      slopeLoop fs t1 v1 (times.drop 2) (vals.drop 2)

/-- Lines 173-218: `is_linear_or_flat`, taking the result of `get_json_data`
(`none` models a missing file or invalid JSON text).  The `except` clause
catches exactly `KeyError`, `IndexError` and `TypeError`; any other error
(notably `AttributeError`) propagates. -/
def is_linear_or_flat (data? : Option JVal) : Except PyErr Bool :=
  match data? with
  | none => .ok true
  | some data =>
    if truthy data then
      match linBody data with
      | .ok b => .ok b
      | .error .keyError => .ok true
      | .error .indexError => .ok true
      | .error .typeError => .ok true
      | .error e => .error e
    else .ok true

/-!
## The virtual curve generator `generate_virtual_attack_files` (lines 358-408)
-/

/-- One entry of `self.virtual_files_data`: the per-stage
`{"Time": [...], "Values": [...]}` dictionaries, the fixed y-label and the
display name used as title (lines 401-408). -/
structure VirtualEntry where
  curves : List (List JVal × List JVal)
  y_label : String
  title_name : String

/-- Line 45: `re.sub(r'([A-Z])', r' \x7b0\x7d', name)` inserts a space before
every ASCII uppercase letter. -/
def spaceCaps (s : String) : String :=
  ⟨s.data.foldr (fun c acc => if c.isUpper then ' ' :: c :: acc else c :: acc) []⟩

/-- Python `s.strip()`. -/
def pyStrip (s : String) : String :=
  ⟨((s.data.dropWhile Char.isWhitespace).reverse.dropWhile Char.isWhitespace).reverse⟩

/-- Lines 42-46: `format_virtual_name`. -/
def format_virtual_name (s : String) : String := pyStrip (spaceCaps s)

/-- Line 387: `attack_name.split('.')[-1]` — the segment after the last dot
(the whole string when no dot occurs). -/
def lastSeg : List Char → List Char → List Char
  | acc, [] => acc
  | _, '.' :: rest => lastSeg [] rest
  | acc, c :: rest => lastSeg (acc ++ [c]) rest

def cleanName (s : String) : String := ⟨lastSeg [] s.data⟩

/-- Lines 387-389: the display name of a qualifying balance-table key. -/
def displayNameOf (k : String) : String :=
  format_virtual_name (cleanName k) ++ " Attack"

/-- Line 384: the dict comprehension building `damage_attributes`.  The
`startswith` test short-circuits, so `v["AttributePercentageValues"]` is only
evaluated (and can only raise) on keys with the `"Damage."` prefix. -/
def buildDamageAttrs : List (String × JVal) → Except PyErr (List (String × JVal))
  | [] => .ok []
  | (k, v) :: rest =>
    if sStarts "Damage." k then do
      let pv ← pyGetItem v "AttributePercentageValues"
      if pyNeZero pv then do
        let tail ← buildDamageAttrs rest
        pure ((k, pv) :: tail)
      else buildDamageAttrs rest
    else buildDamageAttrs rest

/-- Lines 397-400: the keyframe loop, keeping keyframes with `Time > 0.0` and
multiplying their value by the damage percentage. -/
def virtualKeyLoop (dmg : JVal) : List JVal → Except PyErr (List JVal × List JVal)
  | [] => .ok ([], [])
  | key :: rest => do
    let t ← pyGetItem key "Time"
    let gt ← pyGtZero t
    if gt then do
      let v ← pyGetItem key "Value"
      let pv ← pyMulJ v dmg
      let tv ← virtualKeyLoop dmg rest
      pure (t :: tv.1, pv :: tv.2)
    else virtualKeyLoop dmg rest

/-- Lines 394-401: one life stage — `curve["Keys"]` iterated through the
keyframe loop. -/
def buildStage (dmg : JVal) (curve : JVal) : Except PyErr (List JVal × List JVal) := do
  let keysJ ← pyGetItem curve "Keys"
  let keys ← pyIter keysJ
  virtualKeyLoop dmg keys

/-- Assignment `self.virtual_files_data[display_name] = ...` (line 404) on a
dict kept as an insertion-ordered association list: an existing key is
updated in place, a new key is appended. -/
def dictInsert (m : List (String × VirtualEntry)) (k : String) (v : VirtualEntry) :
    List (String × VirtualEntry) :=
  if (lookupKV m k).isSome then m.map (fun p => if p.1 == k then (k, v) else p)
  else m ++ [(k, v)]

/-- Lines 386-408: the loop over `damage_attributes.items()`.  `ap_curves[:2]`
is sliced inside each iteration, exactly as in the source. -/
def entryLoop (ap_curves : JVal) :
    List (String × JVal) → List (String × VirtualEntry) →
    Except PyErr (List (String × VirtualEntry))
  | [], acc => .ok acc
  | (k, dmg) :: rest, acc => do
    let stagesSrc ← pySlice2 ap_curves
    let stages ← exMapL (buildStage dmg) stagesSrc
    let name := displayNameOf k
    entryLoop ap_curves rest (dictInsert acc name ⟨stages, "Damage", name⟩)

/-- Lines 358-408: `generate_virtual_attack_files`, with the two
`get_json_data` results as inputs (`none` models a missing or unparseable
file) and the final `self.virtual_files_data` as output.  The `try` of lines
371-382 covers only the attack-power shape resolution and catches `KeyError`,
`ValueError` and `IndexError`; the `damage_attributes` comprehension of line
384 and the generation loop run outside of it. -/
def generate_virtual_attack_files (balance_data attack_power_data : Option JVal) :
    Except PyErr (List (String × VirtualEntry)) :=
  match balance_data, attack_power_data with
  | none, _ => .ok []
  | _, none => .ok []
  | some bd, some ad =>
    if truthy bd && truthy ad then
      match (do
          let ap0 ← pyIndex0 ad
          resolveGenerator ap0 : Except PyErr JVal) with
      | .error .keyError => .ok []
      | .error .valueError => .ok []
      | .error .indexError => .ok []
      | .error e => .error e
      | .ok ap_curves => do
        let b0 ← pyIndex0 bd
        let rowsJ ← pyGetItem b0 "Rows"
        let rows ← pyItems rowsJ
        let dmg ← buildDamageAttrs rows
        entryLoop ap_curves dmg []
    else .ok []

/-!
## The plotting branch of `plot_selected_file` (lines 443-477)
-/

/-- The arguments `plot_data` receives (line 477): per-stage time and value
lists, the title and the resolved y-axis label. -/
structure PlotCall where
  time_points_list : List (List JVal)
  values_list : List (List JVal)
  file_name : String
  y_label : String

/-- Lines 465-472: the axis label chain (`speed` before `weight`, generic
otherwise). -/
def labelOf (selected : String) : String :=
  if sHas (sLower selected) "speed" then "Value (km/h)"
  else if sHas (sLower selected) "weight" then "Value (kg)"
  else "Value"

/-- Lines 465-469: the conversion factor, `0.036` for names containing
`speed`, otherwise `1.0`. -/
def factorOf (selected : String) : ℚ :=
  if sHas (sLower selected) "speed" then 36 / 1000 else 1

/-- Lines 455-473: per-curve processing — extract the `Time` and `Value`
lists, apply the weight/scale boundary extension, then multiply every value
by the conversion factor. -/
def processCurve (selected : String) (curve : JVal) :
    Except PyErr (List JVal × List JVal) := do
  let keysJ ← pyGetItem curve "Keys"
  let keys ← pyIter keysJ
  let times ← exMapL (fun k => pyGetItem k "Time") keys
  let vals ← exMapL (fun k => pyGetItem k "Value") keys
  let tv ←
    if sLower selected == "weight" || sLower selected == "scale" then
      if !times.isEmpty then do
        let lastT ← lLast times
        let lt ← pyLtOneB lastT
        if lt then do
          let lastV ← lLast vals
          pure (times ++ [JVal.num 1], vals ++ [lastV])
        else pure (times, vals)
      else pure (times, vals)
    else pure (times, vals)
  let vals2 ← exMapL (fun v => pyMulJ v (.num (factorOf selected))) tv.2
  pure (tv.1, vals2)

/-- Lines 443-477: the disk-file branch of `plot_selected_file`, from the
`get_json_data` result to the `plot_data` call (`.ok none` models the silent
returns on falsy data). -/
def plot_selected_file (selected : String) (file_data : Option JVal) :
    Except PyErr (Option PlotCall) :=
  match file_data with
  | none => .ok none
  | some fd =>
    if truthy fd then do
      let f0 ← pyIndex0 fd
      let fcs ← resolvePlotter f0
      if truthy fcs then do
        let c0 ← pyIndex0 fcs
        if truthy c0 then do
          let curves ← pySlice2 fcs
          let series ← exMapL (processCurve selected) curves
          pure (some ⟨series.map Prod.fst, series.map Prod.snd, selected, labelOf selected⟩)
        else pure none
      else pure none
    else .ok none

/-!
## Encodings of well-formed inputs and spec-level descriptions
-/

/-- JSON encoding of a keyframe `{Time, Value}`. -/
def encodeKey (p : ℚ × ℚ) : JVal := .obj [("Time", .num p.1), ("Value", .num p.2)]

/-- JSON encoding of one curve object `{Keys: [...]}`. -/
def encodeCurve (kf : List (ℚ × ℚ)) : JVal := .obj [("Keys", .arr (kf.map encodeKey))]

/-- JSON encoding of an attribute file in shape (A):
`[{FloatCurves: [...]}]`. -/
def encodeFile (kfss : List (List (ℚ × ℚ))) : JVal :=
  .arr [.obj [("FloatCurves", .arr (kfss.map encodeCurve))]]

/-- An attribute file in shape (A) with an arbitrary key list in its first
curve. -/
def encodeRawFile (keys : List JVal) : JVal :=
  .arr [.obj [("FloatCurves", .arr [.obj [("Keys", .arr keys)]])]]

/-- JSON encoding of one balance-table row. -/
def encodeRow (p : String × ℚ) : String × JVal :=
  (p.1, .obj [("AttributePercentageValues", .num p.2)])

/-- JSON encoding of a balance-table file `[{Rows: {...}}]`. -/
def encodeBalance (tbl : List (String × ℚ)) : JVal :=
  .arr [.obj [("Rows", .obj (tbl.map encodeRow))]]

/-- The claim's slope of a consecutive keyframe pair: `+infinity` (`none`)
when the two times are equal, else the difference quotient. -/
def specSlope (t0 v0 t1 v1 : ℚ) : Option ℚ :=
  if t1 - t0 = 0 then none else some ((v1 - v0) / (t1 - t0))

/-- The claim's slope scan: compare the slope of every consecutive pair
against the first slope, failing at the first pair that differs by more than
the tolerance. -/
def pairwiseSlopesOk (fs : Option ℚ) : (ℚ × ℚ) → List (ℚ × ℚ) → Bool
  | _, [] => true
  | prev, cur :: rest =>
    if slopeExceeds (specSlope prev.1 prev.2 cur.1 cur.2) fs then false
    else pairwiseSlopesOk fs cur rest

/-- The claim's description of the classifier on a curve with more than two
keyframes: trivial iff flat, or all consecutive slopes within `1e-9` of the
slope between keyframes 0 and 1. -/
def specIsTrivial (kfs : List (ℚ × ℚ)) : Bool :=
  match kfs with
  | k0 :: k1 :: rest =>
    (kfs.all fun p => p.2 == k0.2) ||
      pairwiseSlopesOk (specSlope k0.1 k0.2 k1.1 k1.2) k1 rest
  | _ => true

/-- The claim's derived virtual curve: drop keyframes with `time <= 0`, emit
`value * damagePercentage` for the rest. -/
def specVirtualCurve (q : ℚ) (kfs : List (ℚ × ℚ)) : List JVal × List JVal :=
  ((kfs.filter fun p => decide (0 < p.1)).map fun p => JVal.num p.1,
   (kfs.filter fun p => decide (0 < p.1)).map fun p => JVal.num (p.2 * q))

/-- Whether a balance-table row qualifies for derivation: `"Damage."` prefix
and non-zero percentage. -/
def qualRow (p : String × ℚ) : Bool := sStarts "Damage." p.1 && decide (p.2 ≠ 0)

/-- The claim's virtual entry for one qualifying key: derived curves for the
first two life stages, fixed y-label, display name from the key. -/
def specEntry (kfss : List (List (ℚ × ℚ))) (p : String × ℚ) : String × VirtualEntry :=
  (displayNameOf p.1,
   ⟨(kfss.take 2).map (specVirtualCurve p.2), "Damage", displayNameOf p.1⟩)

/-- The claim's boundary extension: when the final time point is below 1,
append one synthetic keyframe at time 1 carrying the last value. -/
def boundaryExtend (kfs : List (ℚ × ℚ)) : List (ℚ × ℚ) :=
  match kfs.getLast? with
  | some last => if last.1 < 1 then kfs ++ [(1, last.2)] else kfs
  | none => kfs

/-- Boundary extension as gated by the attribute name (`weight`/`scale`,
case-insensitively, exactly). -/
def boundaryExtendIf (selected : String) (kfs : List (ℚ × ℚ)) : List (ℚ × ℚ) :=
  if sLower selected = "weight" ∨ sLower selected = "scale" then boundaryExtend kfs
  else kfs

/-!
## Evaluation lemmas on well-formed encodings
-/

theorem exMapL_map {α β : Type} (f : JVal → Except PyErr α) (g : β → JVal) (h : β → α)
    (H : ∀ x, f (g x) = .ok (h x)) (xs : List β) :
    exMapL f (xs.map g) = .ok (xs.map h) := by
  induction xs with
  | nil => simp [exMapL]
  | cons x xs ih => simp [exMapL, H, ih]

theorem pyGetItem_time (p : ℚ × ℚ) : pyGetItem (encodeKey p) "Time" = .ok (.num p.1) := by
  simp [encodeKey, pyGetItem, lookupKV]

theorem pyGetItem_value (p : ℚ × ℚ) : pyGetItem (encodeKey p) "Value" = .ok (.num p.2) := by
  simp [encodeKey, pyGetItem, lookupKV]

theorem times_of_encoded (kfs : List (ℚ × ℚ)) :
    exMapL (fun k => pyGetItem k "Time") (kfs.map encodeKey)
      = .ok (kfs.map fun p => JVal.num p.1) :=
  exMapL_map (fun k => pyGetItem k "Time") encodeKey (fun p => JVal.num p.1)
    pyGetItem_time kfs

theorem vals_of_encoded (kfs : List (ℚ × ℚ)) :
    exMapL (fun k => pyGetItem k "Value") (kfs.map encodeKey)
      = .ok (kfs.map fun p => JVal.num p.2) :=
  exMapL_map (fun k => pyGetItem k "Value") encodeKey (fun p => JVal.num p.2)
    pyGetItem_value kfs

theorem virtualKeyLoop_eval (q : ℚ) (kfs : List (ℚ × ℚ)) :
    virtualKeyLoop (.num q) (kfs.map encodeKey) = .ok (specVirtualCurve q kfs) := by
  induction kfs with
  | nil => simp [virtualKeyLoop, specVirtualCurve]
  | cons p rest ih =>
    by_cases h : 0 < p.1
    · simp [virtualKeyLoop, pyGetItem_time, pyGetItem_value, pyGtZero, asNum, pyMulJ, h, ih,
        specVirtualCurve]
    · simp [virtualKeyLoop, pyGetItem_time, pyGtZero, asNum, h, ih, specVirtualCurve]

theorem buildStage_eval (q : ℚ) (kfs : List (ℚ × ℚ)) :
    buildStage (.num q) (encodeCurve kfs) = .ok (specVirtualCurve q kfs) := by
  simp [buildStage, encodeCurve, pyGetItem, lookupKV, pyIter, virtualKeyLoop_eval]

theorem buildDamageAttrs_eval (tbl : List (String × ℚ)) :
    buildDamageAttrs (tbl.map encodeRow)
      = .ok ((tbl.filter qualRow).map fun p => (p.1, JVal.num p.2)) := by
  induction tbl with
  | nil => simp [buildDamageAttrs]
  | cons p rest ih =>
    by_cases h1 : sStarts "Damage." p.1
    · by_cases h2 : p.2 ≠ 0
      · simp [buildDamageAttrs, encodeRow, h1, pyGetItem, lookupKV, pyNeZero, asNum, h2, ih,
          qualRow]
      · simp [buildDamageAttrs, encodeRow, h1, pyGetItem, lookupKV, pyNeZero, asNum, h2, ih,
          qualRow]
    · simp [buildDamageAttrs, encodeRow, h1, ih, qualRow]

theorem entryLoop_eval (kfss : List (List (ℚ × ℚ))) (ds : List (String × ℚ))
    (acc : List (String × VirtualEntry)) :
    entryLoop (.arr (kfss.map encodeCurve)) (ds.map fun p => (p.1, JVal.num p.2)) acc
      = .ok (ds.foldl
          (fun a p => dictInsert a (specEntry kfss p).1 (specEntry kfss p).2) acc) := by
  induction ds generalizing acc with
  | nil => simp [entryLoop]
  | cons p rest ih =>
    have hs : exMapL (buildStage (JVal.num p.2)) ((kfss.map encodeCurve).take 2)
        = .ok ((kfss.take 2).map (specVirtualCurve p.2)) := by
      rw [← List.map_take]
      exact exMapL_map (buildStage (JVal.num p.2)) encodeCurve (specVirtualCurve p.2)
        (buildStage_eval p.2) (kfss.take 2)
    simp [entryLoop, pySlice2, hs, ih, specEntry]

theorem lookupKV_append_none {α : Type} (a b : List (String × α)) (k : String)
    (h : lookupKV a k = none) : lookupKV (a ++ b) k = lookupKV b k := by
  induction a with
  | nil => simp
  | cons x rest ih =>
    by_cases hx : x.1 == k
    · simp [lookupKV, hx] at h
    · simp only [lookupKV, hx, List.cons_append, if_neg] at h ⊢
      · exact ih h

theorem foldl_dictInsert_fresh (es : List (String × VirtualEntry))
    (acc : List (String × VirtualEntry))
    (hfresh : ∀ e ∈ es, lookupKV acc e.1 = none)
    (hdup : (es.map Prod.fst).Nodup) :
    es.foldl (fun a e => dictInsert a e.1 e.2) acc = acc ++ es := by
  induction es generalizing acc with
  | nil => simp
  | cons e rest ih =>
    have h1 : lookupKV acc e.1 = none := hfresh e (by simp)
    have hstep : dictInsert acc e.1 e.2 = acc ++ [(e.1, e.2)] := by
      simp [dictInsert, h1]
    have hfresh2 : ∀ x ∈ rest, lookupKV (acc ++ [(e.1, e.2)]) x.1 = none := by
      intro x hx
      have hne : x.1 ≠ e.1 := by
        have := (List.nodup_cons.mp hdup).1
        intro hcontra
        exact this (by simpa [hcontra] using List.mem_map_of_mem Prod.fst hx)
      rw [lookupKV_append_none _ _ _ (hfresh x (List.mem_cons_of_mem _ hx))]
      simp [lookupKV, hne]
      intro hcontra
      exact absurd hcontra.symm hne
    rw [List.foldl_cons, hstep, ih _ hfresh2 (List.nodup_cons.mp hdup).2]
    simp

/-!
## Claim C1
-/

/-- Claim C1, amended.  For every balance table and attack-power curve set
(well-formed, with the qualifying keys yielding pairwise-distinct display
names), virtual curve generation produces exactly one entry per key with the
`"Damage."` prefix and a non-zero percentage; each entry's curves come from
the first two attack-power life stages by dropping every keyframe with
`time <= 0` and emitting `value * damagePercentage`.  (The distinctness
hypothesis is forced by the counterexample: two qualifying keys sharing a
display name collapse into a single dictionary entry.) -/
theorem c1_virtual_generation (tbl : List (String × ℚ)) (kfss : List (List (ℚ × ℚ)))
    (hdup : ((tbl.filter qualRow).map fun p => displayNameOf p.1).Nodup) :
    generate_virtual_attack_files (some (encodeBalance tbl)) (some (encodeFile kfss))
      = .ok ((tbl.filter qualRow).map (specEntry kfss)) := by
  have h3 : (tbl.filter qualRow).foldl
      (fun a p => dictInsert a (specEntry kfss p).1 (specEntry kfss p).2) []
      = (tbl.filter qualRow).map (specEntry kfss) := by
    have hd2 : (((tbl.filter qualRow).map (specEntry kfss)).map Prod.fst).Nodup := by
      have : ((tbl.filter qualRow).map (specEntry kfss)).map Prod.fst
          = (tbl.filter qualRow).map fun p => displayNameOf p.1 := by
        simp [List.map_map, specEntry]
      rw [this]; exact hdup
    have h4 := foldl_dictInsert_fresh ((tbl.filter qualRow).map (specEntry kfss)) []
      (by intro e _; simp [lookupKV]) hd2
    rw [List.foldl_map] at h4
    simpa using h4
  simp [generate_virtual_attack_files, encodeBalance, encodeFile, truthy, pyIndex0,
    resolveGenerator, pyHasKey, lookupKV, pyGetItem, pyItems, buildDamageAttrs_eval,
    entryLoop_eval, h3]

/-- Claim C1, counterexample to the claim as stated.  The qualifying keys
`"Damage.Bite"` and `"Damage.X.Bite"` (both prefixed, both non-zero) share
the display name `"Bite Attack"`, so generation yields one entry for two
qualifying keys — not "exactly one entry per key". -/
theorem c1_counterexample :
    (generate_virtual_attack_files
        (some (encodeBalance [("Damage.Bite", 1), ("Damage.X.Bite", 2)]))
        (some (encodeFile [[(1/2, 10)]]))).map List.length = .ok 1
    ∧ ([("Damage.Bite", (1 : ℚ)), ("Damage.X.Bite", 2)].filter qualRow).length = 2 := by
  have s1 : sStarts "Damage." "Damage.Bite" = true := by decide
  have s2 : sStarts "Damage." "Damage.X.Bite" = true := by decide
  have d1 : displayNameOf "Damage.Bite" = "Bite Attack" := by decide
  have d2 : displayNameOf "Damage.X.Bite" = "Bite Attack" := by decide
  constructor
  · norm_num [generate_virtual_attack_files, encodeBalance, encodeRow, encodeFile,
      truthy, pyIndex0, resolveGenerator, pyHasKey, pyGetItem, lookupKV, pyItems,
      buildDamageAttrs, s1, s2, pyNeZero, asNum, entryLoop, pySlice2, exMapL,
      buildStage_eval, specVirtualCurve, d1, d2, dictInsert, Except.map]
  · norm_num [qualRow, s1, s2]

/-- Claim C1, witness: the spec's concrete example.  On percentage table
`{"Damage.Bite": 0.5, "Other.X": 1.0}` with stage-0 attack-power keyframes
`[(0,10),(0.5,20),(1,30)]`, generation produces exactly the one entry
`"Bite Attack"` with curve `[(0.5,10),(1,15)]` (the `t=0` keyframe dropped). -/
theorem c1_witness :
    generate_virtual_attack_files
        (some (encodeBalance [("Damage.Bite", 1/2), ("Other.X", 1)]))
        (some (encodeFile [[(0, 10), (1/2, 20), (1, 30)]]))
      = .ok [("Bite Attack",
          ⟨[([JVal.num (1/2), JVal.num 1], [JVal.num 10, JVal.num 15])],
           "Damage", "Bite Attack"⟩)] := by
  have s1 : sStarts "Damage." "Damage.Bite" = true := by decide
  have s2 : sStarts "Damage." "Other.X" = false := by decide
  have d1 : displayNameOf "Damage.Bite" = "Bite Attack" := by decide
  have hfilter : ([("Damage.Bite", (1/2 : ℚ)), ("Other.X", 1)].filter qualRow)
      = [("Damage.Bite", (1/2 : ℚ))] := by
    norm_num [qualRow, s1, s2]
  have h := c1_virtual_generation [("Damage.Bite", 1/2), ("Other.X", 1)]
      [[(0, 10), (1/2, 20), (1, 30)]] (by rw [hfilter]; simp)
  rw [h, hfilter]
  norm_num [specEntry, specVirtualCurve, d1]

/-!
## Claims C3 and C4
-/

theorem pyEqB_num (a b : ℚ) : pyEqB (.num a) (.num b) = (a == b) := rfl

theorem all_map_het {α β : Type} (f : α → β) (p : β → Bool) (l : List α) :
    (l.map f).all p = l.all fun a => p (f a) := by
  induction l with
  | nil => rfl
  | cons x xs ih => simp [ih]

theorem slopeLoop_eval (fs : Option ℚ) (prev : ℚ × ℚ) (rest : List (ℚ × ℚ)) :
    slopeLoop fs (.num prev.1) (.num prev.2)
      (rest.map fun p => JVal.num p.1) (rest.map fun p => JVal.num p.2)
      = .ok (pairwiseSlopesOk fs prev rest) := by
  induction rest generalizing prev with
  | nil => simp [slopeLoop, pairwiseSlopesOk]
  | cons cur rest ih =>
    by_cases htd : (cur.1 - prev.1 : ℚ) = 0
    · by_cases hex : slopeExceeds none fs
      · simp [slopeLoop, pySub, asNum, htd, hex, pairwiseSlopesOk, specSlope]
      · simp [slopeLoop, pySub, asNum, htd, hex, pairwiseSlopesOk, specSlope, ih]
    · by_cases hex : slopeExceeds (some ((cur.2 - prev.2) / (cur.1 - prev.1))) fs
      · simp [slopeLoop, pySub, asNum, htd, hex, pairwiseSlopesOk, specSlope]
      · simp [slopeLoop, pySub, asNum, htd, hex, pairwiseSlopesOk, specSlope, ih]

theorem linBody_eval (kfs : List (ℚ × ℚ)) (h : 2 < kfs.length) :
    linBody (encodeFile [kfs]) = .ok (specIsTrivial kfs) := by
  obtain ⟨k0, k1, krest, rfl⟩ : ∃ a b r, kfs = a :: b :: r := by
    match kfs, h with
    | a :: b :: r, _ => exact ⟨a, b, r, rfl⟩
  have hkeys : ∀ v : JVal, pyGetItem (.obj [("Keys", v)]) "Keys" = .ok v := by
    intro v
    simp [pyGetItem, lookupKV]
  have hlen : ¬((List.map encodeKey (k0 :: k1 :: krest)).length ≤ 2) := by
    rw [List.length_map]
    exact Nat.not_le.mpr h
  simp only [linBody, encodeFile, encodeCurve, List.map_cons, List.map_nil, pyIndex0,
    resolveClassifier, pyDictGet, lookupKV, beq_self_eq_true, if_true, exceptBindOk,
    Option.getD_some, truthy, List.isEmpty_cons, Bool.not_false, hkeys, pyLen, pyIter,
    exceptPureEq, List.length_map]
  rw [if_neg (by simpa using hlen)]
  rw [show encodeKey k0 :: encodeKey k1 :: List.map encodeKey krest
      = List.map encodeKey (k0 :: k1 :: krest) from by simp]
  rw [times_of_encoded, vals_of_encoded]
  simp only [exceptBindOk, List.map_cons]
  simp only [lGet, List.get?, exceptBindOk]
  by_cases hflat : ((JVal.num k0.2 :: JVal.num k1.2 :: List.map (fun p => JVal.num p.2) krest).all
      (fun v => pyEqB v (JVal.num k0.2))) = true
  · have hflat2 : (k0 :: k1 :: krest).all (fun p => p.2 == k0.2) = true := by
      have := hflat
      rw [show JVal.num k0.2 :: JVal.num k1.2 :: List.map (fun p => JVal.num p.2) krest
          = List.map (fun p : ℚ × ℚ => JVal.num p.2) (k0 :: k1 :: krest) by simp,
        all_map_het] at this
      simpa [pyEqB_num] using this
    rw [if_pos hflat]
    simp [specIsTrivial, hflat2]
  · have hflat2 : (k0 :: k1 :: krest).all (fun p => p.2 == k0.2) = false := by
      have := hflat
      rw [show JVal.num k0.2 :: JVal.num k1.2 :: List.map (fun p => JVal.num p.2) krest
          = List.map (fun p : ℚ × ℚ => JVal.num p.2) (k0 :: k1 :: krest) by simp,
        all_map_het] at this
      simpa [pyEqB_num] using this
    rw [if_neg hflat]
    simp only [pySub, asNum, exceptBindOk, List.drop_succ_cons, List.drop_zero]
    by_cases htd : (k1.1 - k0.1 : ℚ) = 0
    · simp only [htd, if_true, exceptPureEq, exceptBindOk]
      rw [slopeLoop_eval none k1 krest]
      simp [specIsTrivial, hflat2, specSlope, htd]
    · simp only [htd, if_false, exceptPureEq, exceptBindOk, if_neg htd]
      rw [slopeLoop_eval (some ((k1.2 - k0.2) / (k1.1 - k0.1))) k1 krest]
      simp [specIsTrivial, hflat2, specSlope, htd]

/-- Claim C3, confirmed.  On any curve with more than two keyframes the
classifier returns trivial exactly when the curve is flat (every value equal
to the first) or every consecutive slope — `+infinity` for zero-duration
pairs — stays within absolute tolerance `1e-9` of the slope between
keyframes 0 and 1. -/
theorem c3_classifier (kfs : List (ℚ × ℚ)) (h : 2 < kfs.length) :
    is_linear_or_flat (some (encodeFile [kfs])) = .ok (specIsTrivial kfs) := by
  have ht : truthy (encodeFile [kfs]) = true := by simp [encodeFile, truthy]
  have hb := linBody_eval kfs h
  simp only [is_linear_or_flat, ht, if_true]
  rw [hb]

/-- Claim C3, witness: keyframes `(0,0),(0.5,1),(1,4)` (slopes 2 and 6) are
classified non-trivial, and `(0,0),(0.5,1),(1,2)` (constant slope 2)
trivial. -/
theorem c3_witness :
    is_linear_or_flat (some (encodeFile [[(0, 0), (1/2, 1), (1, 4)]])) = .ok false
    ∧ is_linear_or_flat (some (encodeFile [[(0, 0), (1/2, 1), (1, 2)]])) = .ok true := by
  constructor
  · rw [c3_classifier [(0, 0), (1/2, 1), (1, 4)] (by norm_num)]
    norm_num [specIsTrivial, pairwiseSlopesOk, specSlope, slopeExceeds, tol]
  · rw [c3_classifier [(0, 0), (1/2, 1), (1, 2)] (by norm_num)]
    norm_num [specIsTrivial, pairwiseSlopesOk, specSlope, slopeExceeds, tol]

/-- Claim C4, confirmed.  Any curve with two or fewer keyframes — whatever
the keyframes contain, even non-objects — is classified trivial. -/
theorem c4_short_curves (keys : List JVal) (h : keys.length ≤ 2) :
    is_linear_or_flat (some (encodeRawFile keys)) = .ok true := by
  simp [is_linear_or_flat, encodeRawFile, truthy, linBody, pyIndex0, resolveClassifier,
    pyDictGet, lookupKV, pyGetItem, pyLen, h]

/-- Claim C4, witness: a two-keyframe "curve" whose keys are not even
keyframe objects is still classified trivial. -/
theorem c4_witness :
    is_linear_or_flat (some (encodeRawFile [.str "junk", .null])) = .ok true :=
  c4_short_curves [.str "junk", .null] (by simp)

/-!
## Claims C5 and C6
-/

theorem pyGetItem_keys (v : JVal) : pyGetItem (.obj [("Keys", v)]) "Keys" = .ok v := by
  simp [pyGetItem, lookupKV]

theorem getLast?_map {α β : Type} (f : α → β) (l : List α) :
    (l.map f).getLast? = l.getLast?.map f := by
  induction l with
  | nil => rfl
  | cons x xs ih =>
    cases xs with
    | nil => rfl
    | cons y ys => simpa [List.getLast?_cons_cons] using ih


theorem processCurve_eval (selected : String) (kfs : List (ℚ × ℚ)) :
    processCurve selected (encodeCurve kfs)
      = .ok ((boundaryExtendIf selected kfs).map fun p => JVal.num p.1,
             (boundaryExtendIf selected kfs).map fun p =>
               JVal.num (p.2 * factorOf selected)) := by
  have hfin : ∀ l : List (ℚ × ℚ),
      exMapL (fun v => pyMulJ v (.num (factorOf selected))) (l.map fun p => JVal.num p.2)
        = .ok (l.map fun p => JVal.num (p.2 * factorOf selected)) := by
    intro l
    exact exMapL_map (fun v => pyMulJ v (.num (factorOf selected)))
      (fun p => JVal.num p.2) (fun p => JVal.num (p.2 * factorOf selected))
      (fun p => by simp [pyMulJ, asNum]) l
  simp only [processCurve, encodeCurve, pyGetItem_keys, exceptBindOk, pyIter,
    times_of_encoded, vals_of_encoded]
  by_cases hn : sLower selected = "weight" ∨ sLower selected = "scale"
  · have hnb : (sLower selected == "weight" || sLower selected == "scale") = true := by
      rcases hn with h | h <;> simp [h]
    rcases hL : kfs.getLast? with _ | last
    · have hnil : kfs = [] := List.getLast?_eq_none_iff.mp hL
      subst hnil
      simp [hnb, boundaryExtendIf, boundaryExtend, hn, exMapL]
    · have hne : kfs ≠ [] := by
        intro hcontra
        rw [hcontra] at hL
        exact Option.noConfusion hL
      have hempty : (kfs.map fun p => JVal.num p.1).isEmpty = false := by
        cases kfs with
        | nil => exact absurd rfl hne
        | cons a as => rfl
      have hlastT : (kfs.map fun p => JVal.num p.1).getLast? = some (JVal.num last.1) := by
        rw [getLast?_map, hL]; rfl
      have hlastV : (kfs.map fun p => JVal.num p.2).getLast? = some (JVal.num last.2) := by
        rw [getLast?_map, hL]; rfl
      by_cases hlt : last.1 < 1
      · have happend : (kfs.map fun p => JVal.num p.2) ++ [JVal.num last.2]
            = (kfs ++ [((1 : ℚ), last.2)]).map fun p : ℚ × ℚ => JVal.num p.2 := by
          simp
        simp only [hnb, if_true, hempty, Bool.not_false, lLast, hlastT, hlastV,
          exceptBindOk, pyLtOneB, asNum, decide_eq_true (show last.1 < 1 from hlt),
          if_true, exceptPureEq]
        rw [happend, hfin]
        simp [boundaryExtendIf, hn, boundaryExtend, hL, hlt]
      · simp only [hnb, if_true, hempty, Bool.not_false, lLast, hlastT, exceptBindOk,
          pyLtOneB, asNum, exceptPureEq]
        rw [if_neg (by simpa using hlt)]
        simp only [exceptBindOk, hfin]
        simp [boundaryExtendIf, hn, boundaryExtend, hL, hlt]
  · have hnb : (sLower selected == "weight" || sLower selected == "scale") = false := by
      push_neg at hn
      simp [hn.1, hn.2]
    simp [hnb, hfin, boundaryExtendIf, hn]

theorem plot_eval (selected : String) (kfss : List (List (ℚ × ℚ))) (h : kfss ≠ []) :
    plot_selected_file selected (some (encodeFile kfss))
      = .ok (some
          ⟨(kfss.take 2).map fun kf =>
              (boundaryExtendIf selected kf).map fun p => JVal.num p.1,
           (kfss.take 2).map fun kf =>
              (boundaryExtendIf selected kf).map fun p =>
                JVal.num (p.2 * factorOf selected),
           selected, labelOf selected⟩) := by
  obtain ⟨k, krest, rfl⟩ : ∃ a r, kfss = a :: r := by
    cases kfss with
    | nil => exact absurd rfl h
    | cons a r => exact ⟨a, r, rfl⟩
  have h2 : resolvePlotter
        (.obj [("FloatCurves", .arr (encodeCurve k :: List.map encodeCurve krest))])
      = .ok (.arr (encodeCurve k :: List.map encodeCurve krest)) := by
    simp [resolvePlotter, pyDictGet, lookupKV, truthy]
  have h3 : pySlice2 (.arr (encodeCurve k :: List.map encodeCurve krest))
      = .ok (encodeCurve k :: List.take 1 (List.map encodeCurve krest)) := by
    simp [pySlice2]
  have h4 : exMapL (processCurve selected)
        (encodeCurve k :: List.take 1 (List.map encodeCurve krest))
      = .ok (((boundaryExtendIf selected k).map fun p => JVal.num p.1,
              (boundaryExtendIf selected k).map fun p =>
                JVal.num (p.2 * factorOf selected))
          :: List.take 1 (List.map (fun kf =>
              ((boundaryExtendIf selected kf).map fun p => JVal.num p.1,
               (boundaryExtendIf selected kf).map fun p =>
                 JVal.num (p.2 * factorOf selected))) krest)) := by
    have hm := exMapL_map (processCurve selected) encodeCurve
      (fun kf => ((boundaryExtendIf selected kf).map fun p => JVal.num p.1,
                  (boundaryExtendIf selected kf).map fun p =>
                    JVal.num (p.2 * factorOf selected)))
      (processCurve_eval selected) (k :: krest.take 1)
    simpa using hm
  have hA : truthy (.arr [JVal.obj
      [("FloatCurves", .arr (encodeCurve k :: List.map encodeCurve krest))]]) = true := rfl
  have hB : truthy (.arr (encodeCurve k :: List.map encodeCurve krest)) = true := rfl
  have h5 : truthy (encodeCurve k) = true := rfl
  simp [plot_selected_file, encodeFile, pyIndex0, hA, hB, h2, h3, h4, h5,
    List.map_map, Function.comp_def]

/-- Claim C5, confirmed.  Under an attribute name that case-insensitively
equals `"weight"` or `"scale"`, the per-curve post-processing appends exactly
one synthetic keyframe at time 1 carrying the last value when the final time
point is below 1, and leaves the curve unchanged otherwise (these names get
conversion factor 1, so values are not rescaled). -/
theorem c5_boundary_extension (selected : String) (kfs : List (ℚ × ℚ))
    (hname : sLower selected = "weight" ∨ sLower selected = "scale") :
    processCurve selected (encodeCurve kfs)
      = .ok (match kfs.getLast? with
             | some last =>
               if last.1 < 1 then
                 ((kfs.map fun p => JVal.num p.1) ++ [JVal.num 1],
                  (kfs.map fun p => JVal.num p.2) ++ [JVal.num last.2])
               else (kfs.map fun p => JVal.num p.1, kfs.map fun p => JVal.num p.2)
             | none => ([], [])) := by
  have hfac : factorOf selected = 1 := by
    rcases hname with h | h
    · simp only [factorOf, h]
      norm_num [show sHas "weight" "speed" = false from by decide]
    · simp only [factorOf, h]
      norm_num [show sHas "scale" "speed" = false from by decide]
  rw [processCurve_eval, hfac]
  simp only [boundaryExtendIf, if_pos hname]
  rcases hL : kfs.getLast? with _ | last
  · have hnil : kfs = [] := List.getLast?_eq_none_iff.mp hL
    subst hnil
    simp [boundaryExtend]
  · by_cases hlt : last.1 < 1
    · simp [boundaryExtend, hL, hlt, mul_one]
    · simp [boundaryExtend, hL, hlt, mul_one]

/-- Claim C5, witness: attribute `"Weight"` with curve `[(0,2),(0.8,5)]`
post-processes to `[(0,2),(0.8,5),(1,5)]`, and the same curve ending at
time 1 is left unchanged. -/
theorem c5_witness :
    processCurve "Weight" (encodeCurve [(0, 2), (4/5, 5)])
      = .ok ([JVal.num 0, JVal.num (4/5), JVal.num 1],
             [JVal.num 2, JVal.num 5, JVal.num 5])
    ∧ processCurve "Weight" (encodeCurve [(0, 2), (1, 5)])
      = .ok ([JVal.num 0, JVal.num 1], [JVal.num 2, JVal.num 5]) := by
  constructor
  · rw [c5_boundary_extension "Weight" [(0, 2), (4/5, 5)] (Or.inl (by decide))]
    norm_num [List.getLast?_cons_cons, List.getLast?_singleton]
  · rw [c5_boundary_extension "Weight" [(0, 2), (1, 5)] (Or.inl (by decide))]
    norm_num [List.getLast?_cons_cons, List.getLast?_singleton]

/-- Claim C6, confirmed.  The post-processed series of a plotted file carry
the unit rule: names containing `"speed"` (case-insensitively) get the km/h
label with every value multiplied by exactly 0.036, names containing
`"weight"` get the kg label with values unscaled, all other names the
generic label with factor 1 (the branches apply in that order); in
particular attribute `"Speed"` with stored value 100 plots as 3.6. -/
theorem c6_unit_rule :
    (∀ (selected : String) (kf : List (ℚ × ℚ)),
      plot_selected_file selected (some (encodeFile [kf]))
        = .ok (some
            ⟨[(boundaryExtendIf selected kf).map fun p => JVal.num p.1],
             [(boundaryExtendIf selected kf).map fun p =>
                JVal.num (p.2 * (if sHas (sLower selected) "speed" then 36/1000 else 1))],
             selected,
             if sHas (sLower selected) "speed" then "Value (km/h)"
             else if sHas (sLower selected) "weight" then "Value (kg)"
             else "Value"⟩))
    ∧ plot_selected_file "Speed" (some (encodeFile [[(1, 100)]]))
        = .ok (some ⟨[[JVal.num 1]], [[JVal.num (18/5)]], "Speed", "Value (km/h)"⟩) := by
  constructor
  · intro selected kf
    rw [plot_eval selected [kf] (by simp)]
    simp [labelOf, factorOf]
  · rw [plot_eval "Speed" [[(1, 100)]] (by simp)]
    have h2 : boundaryExtendIf "Speed" [((1 : ℚ), (100 : ℚ))] = [((1 : ℚ), (100 : ℚ))] := by
      rw [boundaryExtendIf, if_neg (by decide)]
    norm_num [labelOf, factorOf, h2, show sHas (sLower "Speed") "speed" = true from by decide]

/-!
## Claim C7
-/

/-- Claim C7, confirmed.  For every curve object `c`, the normalizer maps the
shape-A record `{FloatCurves: [c]}` and the shape-B record
`{Properties: {FloatCurve: c}}` to the identical one-element CurveSet `[c]`
(shape B is wrapped into a singleton list); and when both shapes are present
shape A wins. -/
theorem c7_shape_roundtrip :
    (∀ c : JVal,
      resolveClassifier (.obj [("FloatCurves", .arr [c])]) = .ok (.arr [c])
      ∧ resolveClassifier (.obj [("Properties", .obj [("FloatCurve", c)])])
          = .ok (.arr [c]))
    ∧ (∀ c d : JVal,
      resolveClassifier (.obj [("FloatCurves", .arr [c]),
          ("Properties", .obj [("FloatCurve", d)])]) = .ok (.arr [c])) := by
  constructor
  · intro c
    constructor
    · simp [resolveClassifier, pyDictGet, lookupKV, truthy]
    · simp +decide [resolveClassifier, pyDictGet, lookupKV, truthy]
  · intro c d
    simp [resolveClassifier, pyDictGet, lookupKV, truthy]

/-!
## Claim C8
-/

/-- Claim C8, counterexample to the claim as stated.  A record whose element
0 is a string (a wrongly-typed shape) makes the traversal raise
`AttributeError` (Python's `"x".get` does not exist), which the `except`
clause of lines 217-218 does not catch, so the classifier raises instead of
returning trivial. -/
theorem c8_counterexample :
    is_linear_or_flat (some (.arr [.str "x"])) = .error .attributeError := rfl

/-- Claim C8, amended.  Extraction errors of the caught kinds — `KeyError`,
`IndexError`, `TypeError` (missing keys, out-of-range indices, and most
wrong types) — as well as unparseable input (`none`) and falsy data are all
recovered to trivial; but a traversal hitting an attribute access on a
non-dict raises `AttributeError`, which escapes. -/
theorem c8_error_recovery :
    (∀ data : JVal,
      (linBody data = .error .keyError ∨ linBody data = .error .indexError
        ∨ linBody data = .error .typeError) →
      is_linear_or_flat (some data) = .ok true)
    ∧ is_linear_or_flat none = .ok true
    ∧ (∀ data : JVal, truthy data = false → is_linear_or_flat (some data) = .ok true) := by
  refine ⟨?_, rfl, ?_⟩
  · intro data h
    by_cases ht : truthy data
    · rcases h with h | h | h <;> simp [is_linear_or_flat, ht, h]
    · simp [is_linear_or_flat, ht]
  · intro data ht
    simp [is_linear_or_flat, ht]

/-- Claim C8, witness: a present-but-empty record yields a `TypeError` inside
the traversal and the classifier recovers it to trivial. -/
theorem c8_witness : is_linear_or_flat (some (.arr [.obj []])) = .ok true := by
  have h : linBody (.arr [.obj []]) = .error .typeError := rfl
  exact c8_error_recovery.1 (.arr [.obj []]) (Or.inr (Or.inr h))

/-!
## Claim C10
-/

/-- Claim C10, counterexample.  On a record whose `FloatCurves` key is
present but maps to the empty list while `Properties.FloatCurve` holds a
curve, the classifier's truthiness-based fallback resolves the Properties
curve but the generator's key-membership test resolves the empty list — the
three call sites do not agree. -/
theorem c10_counterexample :
    resolveClassifier (.obj [("FloatCurves", .arr []),
        ("Properties", .obj [("FloatCurve", .obj [("Keys", .arr [])])])])
      = .ok (.arr [.obj [("Keys", .arr [])]])
    ∧ resolveGenerator (.obj [("FloatCurves", .arr []),
        ("Properties", .obj [("FloatCurve", .obj [("Keys", .arr [])])])])
      = .ok (.arr [])
    ∧ (Except.ok (JVal.arr [.obj [("Keys", .arr [])]]) : Except PyErr JVal)
      ≠ .ok (.arr []) := by
  refine ⟨rfl, rfl, ?_⟩
  intro h
  simp at h

/-- Claim C10, amended.  The classifier and the plotter resolve every record
identically (they use the same expression); the generator agrees with them
whenever `FloatCurves` is present with a truthy value, and whenever
`FloatCurves` is absent and `Properties.FloatCurve` is present — it diverges
only on a present-but-falsy `FloatCurves` with a `Properties` fallback. -/
theorem c10_resolution_agreement :
    (∀ rec : JVal, resolveClassifier rec = resolvePlotter rec)
    ∧ (∀ (kvs : List (String × JVal)) (v : JVal),
        lookupKV kvs "FloatCurves" = some v → truthy v = true →
        resolveClassifier (.obj kvs) = .ok v ∧ resolveGenerator (.obj kvs) = .ok v)
    ∧ (∀ (kvs pkvs : List (String × JVal)) (fc : JVal),
        lookupKV kvs "FloatCurves" = none →
        lookupKV kvs "Properties" = some (.obj pkvs) →
        lookupKV pkvs "FloatCurve" = some fc →
        resolveClassifier (.obj kvs) = .ok (.arr [fc])
        ∧ resolveGenerator (.obj kvs) = .ok (.arr [fc])) := by
  refine ⟨fun _ => rfl, ?_, ?_⟩
  · intro kvs v h1 h2
    constructor
    · simp [resolveClassifier, pyDictGet, h1, h2]
    · simp [resolveGenerator, pyHasKey, pyGetItem, h1]
  · intro kvs pkvs fc h1 h2 h3
    constructor
    · simp [resolveClassifier, pyDictGet, h1, h2, h3, truthy]
    · simp [resolveGenerator, pyHasKey, pyGetItem, h1, h2, h3]

/-- Claim C10, witness: on a record with a truthy `FloatCurves` list both
resolutions agree. -/
theorem c10_witness :
    resolveClassifier (.obj [("FloatCurves", .arr [.null])]) = .ok (.arr [.null])
    ∧ resolveGenerator (.obj [("FloatCurves", .arr [.null])]) = .ok (.arr [.null]) :=
  c10_resolution_agreement.2.1 [("FloatCurves", .arr [.null])] (.arr [.null]) rfl rfl

/-!
## Claim C2
-/

/-- Claim C2, counterexample.  A readable balance file whose element 0 lacks
a well-formed `Rows` mapping, paired with a perfectly valid attack-power
file, makes `generate_virtual_attack_files` raise an uncaught `KeyError`
from the `damage_attributes` comprehension (line 384, which sits outside the
`try`) — an exception escaping a core pipeline call to the presentation
layer. -/
theorem c2_counterexample :
    generate_virtual_attack_files (some (.arr [.obj []]))
        (some (encodeFile [[(1, 1)]])) = .error .keyError := rfl

/-- Claim C2, amended.  Missing or unparseable input files and attack-power
files without a recognized curve shape are recovered at the point of
occurrence, generation returning an empty usable result; recovery is not
guaranteed for other malformations (malformed balance rows raise, as the
counterexample shows). -/
theorem c2_error_recovery :
    (∀ ap : Option JVal, generate_virtual_attack_files none ap = .ok [])
    ∧ (∀ b : Option JVal, generate_virtual_attack_files b none = .ok [])
    ∧ (∀ b : Option JVal,
        generate_virtual_attack_files b (some (.arr [.obj []])) = .ok []) := by
  refine ⟨?_, ?_, ?_⟩
  · intro ap
    cases ap <;> rfl
  · intro b
    cases b <;> rfl
  · intro b
    cases b with
    | none => rfl
    | some bd =>
      by_cases ht : truthy bd
      · simp [generate_virtual_attack_files, ht, pyIndex0, resolveGenerator, pyHasKey,
          lookupKV, truthy]
      · simp [generate_virtual_attack_files, ht]

/-!
## Claim C9
-/

theorem pySlice2_len : ∀ (v : JVal) (l : List JVal), pySlice2 v = .ok l → l.length ≤ 2
  | .arr xs, l, h => by
    simp only [pySlice2, Except.ok.injEq] at h
    subst h
    rw [List.length_take]
    exact min_le_left _ _
  | .str s, l, h => by
    simp only [pySlice2, Except.ok.injEq] at h
    subst h
    rw [List.length_map, List.length_take]
    exact min_le_left _ _
  | .null, l, h => by simp [pySlice2] at h
  | .bool b, l, h => by simp [pySlice2] at h
  | .num q, l, h => by simp [pySlice2] at h
  | .obj kvs, l, h => by simp [pySlice2] at h

theorem exMapL_length {α : Type} (f : JVal → Except PyErr α) :
    ∀ (xs : List JVal) (ys : List α), exMapL f xs = .ok ys → ys.length = xs.length := by
  intro xs
  induction xs with
  | nil =>
    intro ys h
    simp only [exMapL, Except.ok.injEq] at h
    subst h
    rfl
  | cons x xs ih =>
    intro ys h
    rcases hf : f x with e | y
    · simp only [exMapL, hf, exceptBindErr] at h
      exact Except.noConfusion h
    · rcases hr : exMapL f xs with e | ys'
      · simp only [exMapL, hf, hr, exceptBindOk, exceptBindErr] at h
        exact Except.noConfusion h
      · simp only [exMapL, hf, hr, exceptBindOk, exceptPureEq, Except.ok.injEq] at h
        subst h
        simp [ih ys' hr]

theorem mem_dictInsert (m : List (String × VirtualEntry)) (k : String) (v : VirtualEntry)
    (e : String × VirtualEntry) (he : e ∈ dictInsert m k v) : e ∈ m ∨ e = (k, v) := by
  unfold dictInsert at he
  by_cases hk : (lookupKV m k).isSome
  · rw [if_pos hk] at he
    rcases List.mem_map.mp he with ⟨p, hp, hpe⟩
    by_cases hpk : p.1 == k
    · right
      rw [← hpe, if_pos hpk]
    · left
      rw [← hpe, if_neg hpk]
      exact hp
  · rw [if_neg hk] at he
    rcases List.mem_append.mp he with h | h
    · left; exact h
    · right; simpa using h

theorem entryLoop_lengths (apc : JVal) :
    ∀ (ds : List (String × JVal)) (acc entries : List (String × VirtualEntry)),
      (∀ e ∈ acc, e.2.curves.length ≤ 2) →
      entryLoop apc ds acc = .ok entries →
      ∀ e ∈ entries, e.2.curves.length ≤ 2 := by
  intro ds
  induction ds with
  | nil =>
    intro acc entries hacc h
    simp only [entryLoop, Except.ok.injEq] at h
    subst h
    exact hacc
  | cons p rest ih =>
    intro acc entries hacc h
    rcases p with ⟨k, dmg⟩
    rcases hs : pySlice2 apc with e | stagesSrc
    · simp only [entryLoop, hs, exceptBindErr] at h
      exact Except.noConfusion h
    · rcases hm : exMapL (buildStage dmg) stagesSrc with e | stages
      · simp only [entryLoop, hs, hm, exceptBindOk, exceptBindErr] at h
        exact Except.noConfusion h
      · simp only [entryLoop, hs, hm, exceptBindOk] at h
        refine ih _ entries ?_ h
        intro e he
        rcases mem_dictInsert _ _ _ e he with hmem | heq
        · exact hacc e hmem
        · rw [heq]
          have h1 : stages.length = stagesSrc.length := exMapL_length _ _ _ hm
          have h2 : stagesSrc.length ≤ 2 := pySlice2_len apc stagesSrc hs
          show stages.length ≤ 2
          omega

theorem plot_lengths (selected : String) (fd : Option JVal) (pc : PlotCall)
    (h : plot_selected_file selected fd = .ok (some pc)) :
    pc.time_points_list.length ≤ 2 ∧ pc.values_list.length ≤ 2 := by
  cases fd with
  | none => simp [plot_selected_file] at h
  | some v =>
    by_cases ht : truthy v
    · simp only [plot_selected_file, ht, if_true] at h
      rcases h0 : pyIndex0 v with e | f0
      · rw [h0] at h; simp at h
      · rw [h0] at h
        simp only [exceptBindOk] at h
        rcases h1 : resolvePlotter f0 with e | fcs
        · rw [h1] at h; simp at h
        · rw [h1] at h
          simp only [exceptBindOk] at h
          by_cases ht2 : truthy fcs
          · simp only [ht2, if_true] at h
            rcases h2 : pyIndex0 fcs with e | c0
            · rw [h2] at h; simp at h
            · rw [h2] at h
              simp only [exceptBindOk] at h
              by_cases ht3 : truthy c0
              · simp only [ht3, if_true] at h
                rcases h3 : pySlice2 fcs with e | curves
                · rw [h3] at h; simp at h
                · rw [h3] at h
                  simp only [exceptBindOk] at h
                  rcases h4 : exMapL (processCurve selected) curves with e | series
                  · rw [h4] at h; simp at h
                  · rw [h4] at h
                    simp only [exceptBindOk, exceptPureEq, Except.ok.injEq,
                      Option.some.injEq] at h
                    subst h
                    have hl1 : series.length = curves.length := exMapL_length _ _ _ h4
                    have hl2 : curves.length ≤ 2 := pySlice2_len fcs curves h3
                    constructor <;> (show (series.map _).length ≤ 2) <;>
                      rw [List.length_map] <;> omega
              · simp [ht3] at h
          · simp [ht2] at h
    · simp [plot_selected_file, ht] at h

theorem gen_lengths (bal ap : Option JVal) (entries : List (String × VirtualEntry))
    (h : generate_virtual_attack_files bal ap = .ok entries) :
    ∀ e ∈ entries, e.2.curves.length ≤ 2 := by
  cases bal with
  | none =>
    cases ap <;>
      (simp only [generate_virtual_attack_files, Except.ok.injEq] at h; subst h; simp)
  | some bd =>
    cases ap with
    | none =>
      simp only [generate_virtual_attack_files, Except.ok.injEq] at h
      subst h
      simp
    | some ad =>
      by_cases ht : (truthy bd && truthy ad) = true
      · simp only [generate_virtual_attack_files, ht, if_true] at h
        rcases hr : (do
            let ap0 ← pyIndex0 ad
            resolveGenerator ap0 : Except PyErr JVal) with e | apc
        · rw [hr] at h
          cases e with
          | keyError =>
            simp only [Except.ok.injEq] at h
            subst h
            simp
          | valueError =>
            simp only [Except.ok.injEq] at h
            subst h
            simp
          | indexError =>
            simp only [Except.ok.injEq] at h
            subst h
            simp
          | typeError => exact Except.noConfusion h
          | attributeError => exact Except.noConfusion h
        · rw [hr] at h
          rcases hb : pyIndex0 bd with e | b0
          · rw [hb] at h
            simp only [exceptBindErr] at h
            exact Except.noConfusion h
          · rw [hb] at h
            simp only [exceptBindOk] at h
            rcases hrows : pyGetItem b0 "Rows" with e | rowsJ
            · rw [hrows] at h
              simp only [exceptBindErr] at h
              exact Except.noConfusion h
            · rw [hrows] at h
              simp only [exceptBindOk] at h
              rcases hitems : pyItems rowsJ with e | rows
              · rw [hitems] at h
                simp only [exceptBindErr] at h
                exact Except.noConfusion h
              · rw [hitems] at h
                simp only [exceptBindOk] at h
                rcases hdmg : buildDamageAttrs rows with e | dmg
                · rw [hdmg] at h
                  simp only [exceptBindErr] at h
                  exact Except.noConfusion h
                · rw [hdmg] at h
                  simp only [exceptBindOk] at h
                  exact entryLoop_lengths apc dmg [] entries (by simp) h
      · simp only [generate_virtual_attack_files, ht, if_false, Except.ok.injEq,
          Bool.false_eq_true] at h
        subst h
        simp

theorem plot_ignores_extra (selected : String) (c0 c1 : JVal) (rest rest' : List JVal) :
    plot_selected_file selected
        (some (.arr [.obj [("FloatCurves", .arr (c0 :: c1 :: rest))]]))
      = plot_selected_file selected
        (some (.arr [.obj [("FloatCurves", .arr (c0 :: c1 :: rest'))]])) := by
  simp [plot_selected_file, truthy, pyIndex0, resolvePlotter, pyDictGet, lookupKV, pySlice2]

theorem gen_ignores_extra (bal : Option JVal) (c0 c1 : JVal) (rest rest' : List JVal) :
    generate_virtual_attack_files bal
        (some (.arr [.obj [("FloatCurves", .arr (c0 :: c1 :: rest))]]))
      = generate_virtual_attack_files bal
        (some (.arr [.obj [("FloatCurves", .arr (c0 :: c1 :: rest'))]])) := by
  have hloop : ∀ (ds : List (String × JVal)) (acc : List (String × VirtualEntry)),
      entryLoop (.arr (c0 :: c1 :: rest)) ds acc
        = entryLoop (.arr (c0 :: c1 :: rest')) ds acc := by
    intro ds
    induction ds with
    | nil => intro acc; rfl
    | cons p rest2 ih =>
      intro acc
      rcases p with ⟨k, dmg⟩
      simp only [entryLoop, pySlice2, List.take_succ_cons, List.take_zero, exceptBindOk]
      cases hm : exMapL (buildStage dmg) [c0, c1] with
      | error e => simp [hm]
      | ok stages => simp [hm, ih]
  have hresL : (do
      let ap0 ← pyIndex0 (.arr [JVal.obj [("FloatCurves", .arr (c0 :: c1 :: rest))]])
      resolveGenerator ap0 : Except PyErr JVal) = .ok (.arr (c0 :: c1 :: rest)) := rfl
  have hresR : (do
      let ap0 ← pyIndex0 (.arr [JVal.obj [("FloatCurves", .arr (c0 :: c1 :: rest'))]])
      resolveGenerator ap0 : Except PyErr JVal) = .ok (.arr (c0 :: c1 :: rest')) := rfl
  cases bal with
  | none => rfl
  | some bd =>
    simp only [generate_virtual_attack_files, hresL, hresR,
      show truthy (.arr [JVal.obj [("FloatCurves", JVal.arr (c0 :: c1 :: rest))]]) = true
        from rfl,
      show truthy (.arr [JVal.obj [("FloatCurves", JVal.arr (c0 :: c1 :: rest'))]]) = true
        from rfl, Bool.and_true]
    by_cases ht : truthy bd = true
    · simp only [ht, if_true]
      rcases hb : pyIndex0 bd with e | b0
      · simp [hb]
      · simp only [hb, exceptBindOk]
        rcases hrows : pyGetItem b0 "Rows" with e | rowsJ
        · simp [hrows]
        · simp only [hrows, exceptBindOk]
          rcases hitems : pyItems rowsJ with e | rows
          · simp [hitems]
          · simp only [hitems, exceptBindOk]
            rcases hdmg : buildDamageAttrs rows with e | dmg
            · simp [hdmg]
            · simp only [hdmg, exceptBindOk]
              exact hloop dmg []
    · simp [ht]

/-- Claim C9, confirmed.  Plotting and virtual-curve derivation use at most
the first two curves of a CurveSet: curves beyond index 1 — even arbitrary
junk values — never influence the result and never cause an error, and the
produced series lists and every virtual entry's curve list have length at
most 2. -/
theorem c9_first_two :
    (∀ (selected : String) (c0 c1 : JVal) (rest rest' : List JVal),
      plot_selected_file selected
          (some (.arr [.obj [("FloatCurves", .arr (c0 :: c1 :: rest))]]))
        = plot_selected_file selected
          (some (.arr [.obj [("FloatCurves", .arr (c0 :: c1 :: rest'))]])))
    ∧ (∀ (bal : Option JVal) (c0 c1 : JVal) (rest rest' : List JVal),
      generate_virtual_attack_files bal
          (some (.arr [.obj [("FloatCurves", .arr (c0 :: c1 :: rest))]]))
        = generate_virtual_attack_files bal
          (some (.arr [.obj [("FloatCurves", .arr (c0 :: c1 :: rest'))]])))
    ∧ (∀ (selected : String) (fd : Option JVal) (pc : PlotCall),
      plot_selected_file selected fd = .ok (some pc) →
      pc.time_points_list.length ≤ 2 ∧ pc.values_list.length ≤ 2)
    ∧ (∀ (bal ap : Option JVal) (entries : List (String × VirtualEntry)),
      generate_virtual_attack_files bal ap = .ok entries →
      ∀ e ∈ entries, e.2.curves.length ≤ 2) :=
  ⟨plot_ignores_extra, gen_ignores_extra, plot_lengths, gen_lengths⟩

/-- Claim C9, witness: a concrete plot call produces at most two series. -/
theorem c9_witness :
    (⟨[[JVal.num 0]], [[JVal.num 1]], "X", "Value"⟩ : PlotCall).time_points_list.length ≤ 2 := by
  have hns : ¬(sLower "X" = "weight" ∨ sLower "X" = "scale") := by decide
  have hconc : plot_selected_file "X" (some (encodeFile [[(0, 1)]]))
      = .ok (some ⟨[[JVal.num 0]], [[JVal.num 1]], "X", "Value"⟩) := by
    rw [plot_eval "X" [[(0, 1)]] (by simp)]
    norm_num [show boundaryExtendIf "X" [((0 : ℚ), (1 : ℚ))] = [((0 : ℚ), (1 : ℚ))]
        from by rw [boundaryExtendIf, if_neg hns],
      labelOf, factorOf, show sHas (sLower "X") "speed" = false from by decide,
      show sHas (sLower "X") "weight" = false from by decide]
  exact (c9_first_two.2.2.1 "X" (some (encodeFile [[(0, 1)]]))
    ⟨[[JVal.num 0]], [[JVal.num 1]], "X", "Value"⟩ hconc).1
